import Mathlib

set_option maxHeartbeats 1000000

namespace JUDISensitivity

/-- Symbolic expressions built by the imaging-condition and linearized-source
routines of `sensitivity.py`: a shallow embedding of the sympy/devito
expressions the code constructs.  `num` is a numeric literal, `pi` the
constant `np.pi` (kept symbolic), `sym` a scalar symbol (such as the time
spacing `dt` or `time.symbolic_max`), `fld` a grid function referenced by
name, `coeff d data` the devito `Function` over the single dimension `d`
holding the literal data `data` (the frequency coefficient field `f`),
`dt2 e` the second time derivative `e.dt2`, and `dsp d o e` the spatial
partial derivative `e.d<d>` at finite-difference order `o`
(`none` meaning the default order). -/
inductive SymExpr where
  | num : ℚ → SymExpr
  | pi : SymExpr
  | sym : String → SymExpr
  | fld : String → SymExpr
  | coeff : String → List ℚ → SymExpr
  | add : SymExpr → SymExpr → SymExpr
  | sub : SymExpr → SymExpr → SymExpr
  | mul : SymExpr → SymExpr → SymExpr
  | div : SymExpr → SymExpr → SymExpr
  | neg : SymExpr → SymExpr
  | pow : SymExpr → Nat → SymExpr
  | cos : SymExpr → SymExpr
  | sin : SymExpr → SymExpr
  | dt2 : SymExpr → SymExpr
  | dsp : String → Option Nat → SymExpr → SymExpr
  deriving DecidableEq

/-- A Python value passed as a wavefield argument: either a devito function
(`fn e dims spaceDims`, carrying its symbolic expression, its full dimension
list `.dimensions` and its space-dimension list `.space_dimensions`), or a
Python tuple of such values.  The source branches dynamically on the
tuple/non-tuple distinction, which this type makes explicit. -/
inductive PVal where
  | fn : SymExpr → List String → List String → PVal
  | tup : List PVal → PVal

/-- The time dimension of the model grid: its index symbol, its spacing `dt`
and its `symbolic_max` (total number of time steps). -/
structure TimeDim where
  index : SymExpr
  spacing : SymExpr
  symbolicMax : SymExpr

/-- The model structure: squared slowness `m`, perturbation `dm`, density
`rho`, inverse density `irho` (with the space order configured on it), and the
time dimension. -/
structure Model where
  m : SymExpr
  dm : SymExpr
  rho : SymExpr
  irho : SymExpr
  irhoSpaceOrder : Nat
  timeDim : TimeDim

/-- The keyword-argument bag passed to the formula functions.  `grad_expr`
calls the selected formula with keywords `freq=freq, factor=dft_sub`; note
that `corr_freq` has a named parameter `dft_sub` (so a `factor` keyword lands
in its unused `**kwargs`), while `isic_freq_g` reads `factor` from `kwargs`. -/
structure Kwargs where
  freq : Option (List ℚ)
  dft_sub : Option Nat
  factor : Option Nat
  w : Option SymExpr

/-- Result of a linearized-source formula: a single expression or a pair of
expressions (the two DFT components). -/
inductive SrcRes where
  | one : SymExpr → SrcRes
  | two : SymExpr → SymExpr → SrcRes

/-- Modelled from the spec: the subsampling collaborator `sub_time` lives in
`wave_utils`, which is not among the sources.  The spec treats it as a black
box that "maps a full time dimension to a subsampled DFT accumulation
dimension and factor", "returning `(subsampled_time_index, factor)`".  When a
subsampling factor is requested it returns the subsampled accumulation index
and that factor; otherwise the full time index and stride 1. -/
def sub_time (timeIndex : SymExpr) (factor : Option Nat) : SymExpr × Nat :=
  match factor with
  | some k => (SymExpr.sym "t_sub", k)
  | none => (timeIndex, 1)

/-- Key, computed by `func_name`, for the imaging-condition / linearized-source registries.
`freq is None` selects the time-domain keys, otherwise the `_freq` keys;
`isic` selects the inverse-scattering variant. -/
def func_name (freq : Option (List ℚ)) (isic : Bool) : String :=
  match freq with
  | none => if isic then "isic" else "corr"
  | some _ => if isic then "isic_freq" else "corr_freq"

/-- Python `sum(list)`: a left fold of `+` starting from `0`. -/
def pysum (l : List SymExpr) : SymExpr :=
  l.foldl SymExpr.add (SymExpr.num 0)

/-- Devito `grad(a).T * grad(b)`: the spatial-gradient dot product, the sum over the
space dimensions of the products of partial derivatives at the default
finite-difference order. -/
def gradDot (dims : List String) (a b : SymExpr) : SymExpr :=
  pysum (dims.map (fun d => SymExpr.mul (SymExpr.dsp d none a) (SymExpr.dsp d none b)))

/-- Using a Python value inside a sympy expression: a tuple cannot be
multiplied into an expression and raises. -/
def pvalExpr (x : PVal) : Except String SymExpr :=
  match x with
  | PVal.fn e _ _ => Except.ok e
  | PVal.tup _ => Except.error "TypeError: tuple in expression"

/-- Attribute access `x.dt2` on a Python value: fails on a tuple, which has no `dt2`. -/
def pvalDt2 (x : PVal) : Except String SymExpr :=
  match x with
  | PVal.fn e _ _ => Except.ok (SymExpr.dt2 e)
  | PVal.tup _ => Except.error "AttributeError: tuple has no dt2"

/-- Time-domain cross correlation `corr_fields(u, v, model, **kwargs)`.
Weight `w = kwargs.get(..., model.time_dim.spacing / model.rho)`; the result
is `- w * v * u.dt2`, which parses as `((-w) * v) * u.dt2`. -/
def corr_fields (u v : PVal) (model : Model) (kw : Kwargs) : Except String SymExpr :=
  let w := kw.w.getD (SymExpr.div model.timeDim.spacing model.rho)
  match pvalExpr v, pvalExpr u with
  | Except.ok ve, Except.ok ue =>
      Except.ok (SymExpr.mul (SymExpr.mul (SymExpr.neg w) ve) (SymExpr.dt2 ue))
  | Except.error s, _ => Except.error s
  | _, Except.error s => Except.error s

/-- Inverse-scattering imaging condition `isic_g(u, v, model, **kwargs)`:
`w * (u * v.dt2 * model.m + grad(u).T * grad(v))` with `w = dt / rho`. -/
def isic_g (u v : PVal) (model : Model) (_kw : Kwargs) : Except String SymExpr :=
  let w := SymExpr.div model.timeDim.spacing model.rho
  match u, v with
  | PVal.fn ue _ us, PVal.fn ve _ _ =>
      Except.ok (SymExpr.mul w (SymExpr.add
        (SymExpr.mul (SymExpr.mul ue (SymExpr.dt2 ve)) model.m)
        (gradDot us ue ve)))
  | PVal.tup _, _ => Except.error "TypeError: tuple wavefield"
  | _, PVal.tup _ => Except.error "AttributeError: tuple has no dt2"

/-- Frequency-domain cross correlation
`corr_freq(u, v, model, freq=None, dft_sub=None, **kwargs)`: frequency
domain cross correlation with on-the-fly DFT.  Mirrors the source line by
line: subsampled time axis from `sub_time(time, dft_sub)`, unpacking of the
DFT accumulator pair `ufr, ufi = u`, the frequency coefficient field
`f = Function(dimensions=(ufr.dimensions[0],), shape=(nfreq,))` with
`f.data[:] = freq[:]`, the phase `omega_t = 2*np.pi*f*tsave*factor*dt`, the
weight `w = (2*np.pi*f)**2/time.symbolic_max`, and the output
`w*(ufr*cos(omega_t) - ufi*sin(omega_t))*v`. -/
def corr_freq (u v : PVal) (model : Model) (kw : Kwargs) : Except String SymExpr :=
  let time := model.timeDim
  let dt := time.spacing
  let ts := sub_time time.index kw.dft_sub
  let tsave := ts.1
  let factor := ts.2
  match u with
  | PVal.tup [ufrV, ufiV] =>
    match kw.freq with
    | none => Except.error "AttributeError: freq is None"
    | some freqv =>
      match ufrV with
      | PVal.tup _ => Except.error "AttributeError: tuple has no dimensions"
      | PVal.fn ufr ufrDims _ =>
        match ufrDims with
        | [] => Except.error "IndexError: dimensions"
        | fdim :: _ =>
          let f := SymExpr.coeff fdim freqv
          let omega_t := SymExpr.mul (SymExpr.mul (SymExpr.mul (SymExpr.mul
              (SymExpr.mul (SymExpr.num 2) SymExpr.pi) f) tsave)
              (SymExpr.num (factor : ℚ))) dt
          let w := SymExpr.div (SymExpr.pow (SymExpr.mul (SymExpr.mul
              (SymExpr.num 2) SymExpr.pi) f) 2) time.symbolicMax
          match pvalExpr ufiV, pvalExpr v with
          | Except.ok ufi, Except.ok ve =>
              Except.ok (SymExpr.mul (SymExpr.mul w (SymExpr.sub
                (SymExpr.mul ufr (SymExpr.cos omega_t))
                (SymExpr.mul ufi (SymExpr.sin omega_t)))) ve)
          | Except.error s, _ => Except.error s
          | _, Except.error s => Except.error s
  | _ => Except.error "ValueError: wavefield pair expected"

/-- Frequency-domain inverse-scattering variant
`isic_freq_g(u, v, model, **kwargs)`: the frequency-domain inverse-scattering
imaging condition.  The frequency array comes from `kwargs.get` at key `freq` and
the subsampling factor from `kwargs.get` at key `factor`; the output is
`w*(ufr*cos(omega_t) - ufi*sin(omega_t))*v*model.m -
factor/time.symbolic_max * (grad(recon).T * grad(v))` with the same phase,
weight and reconstruction as `corr_freq`. -/
def isic_freq_g (u v : PVal) (model : Model) (kw : Kwargs) : Except String SymExpr :=
  let time := model.timeDim
  let dt := time.spacing
  let ts := sub_time time.index kw.factor
  let tsave := ts.1
  let factor := ts.2
  match u with
  | PVal.tup [ufrV, ufiV] =>
    match kw.freq with
    | none => Except.error "AttributeError: freq is None"
    | some freqv =>
      match ufrV with
      | PVal.tup _ => Except.error "AttributeError: tuple has no dimensions"
      | PVal.fn ufr ufrDims ufrSpace =>
        match ufrDims with
        | [] => Except.error "IndexError: dimensions"
        | fdim :: _ =>
          let f := SymExpr.coeff fdim freqv
          let omega_t := SymExpr.mul (SymExpr.mul (SymExpr.mul (SymExpr.mul
              (SymExpr.mul (SymExpr.num 2) SymExpr.pi) f) tsave)
              (SymExpr.num (factor : ℚ))) dt
          let w := SymExpr.div (SymExpr.pow (SymExpr.mul (SymExpr.mul
              (SymExpr.num 2) SymExpr.pi) f) 2) time.symbolicMax
          match pvalExpr ufiV, pvalExpr v with
          | Except.ok ufi, Except.ok ve =>
              let recon := SymExpr.sub (SymExpr.mul ufr (SymExpr.cos omega_t))
                (SymExpr.mul ufi (SymExpr.sin omega_t))
              Except.ok (SymExpr.sub
                (SymExpr.mul (SymExpr.mul (SymExpr.mul w recon) ve) model.m)
                (SymExpr.mul (SymExpr.div (SymExpr.num (factor : ℚ)) time.symbolicMax)
                  (gradDot ufrSpace recon ve)))
          | Except.error s, _ => Except.error s
          | _, Except.error s => Except.error s
  | _ => Except.error "ValueError: wavefield pair expected"

/-- Born source for linearized modeling `basic_src(model, u, **kwargs)`:
weight `w = - model.dm * model.irho` (that is, `(-dm) * irho`); on a tuple
input it returns the pair `(w * u[0].dt2, w * u[1].dt2)`, otherwise the
single expression `w * u.dt2`. -/
def basic_src (model : Model) (u : PVal) : Except String SrcRes :=
  let w := SymExpr.mul (SymExpr.neg model.dm) model.irho
  match u with
  | PVal.tup l =>
    match l.get? 0 with
    | none => Except.error "IndexError: tuple index out of range"
    | some u0 =>
      match pvalDt2 u0 with
      | Except.error s => Except.error s
      | Except.ok d0 =>
        match l.get? 1 with
        | none => Except.error "IndexError: tuple index out of range"
        | some u1 =>
          match pvalDt2 u1 with
          | Except.error s => Except.error s
          | Except.ok d1 =>
              Except.ok (SrcRes.two (SymExpr.mul w d0) (SymExpr.mul w d1))
  | PVal.fn ue _ _ => Except.ok (SrcRes.one (SymExpr.mul w (SymExpr.dt2 ue)))

/-- The auxiliary sum of `isic_s`:
`sum([(u.d<d>(fd_order=so) * dm * irho).d<d>(fd_order=so) for d in
u.space_dimensions])` with `so = irho.space_order // 2`. -/
def du_aux (model : Model) (ue : SymExpr) (sdims : List String) : SymExpr :=
  let so := model.irhoSpaceOrder / 2
  pysum (sdims.map (fun d =>
    SymExpr.dsp d (some so) (SymExpr.mul (SymExpr.mul (SymExpr.dsp d (some so) ue)
      model.dm) model.irho)))

/-- ISIC source for linearized modeling `isic_s(model, u, **kwargs)`:
`dm * irho * u.dt2 * m - du_aux`. -/
def isic_s (model : Model) (u : PVal) : Except String SrcRes :=
  match u with
  | PVal.fn ue _ sdims =>
      Except.ok (SrcRes.one (SymExpr.sub
        (SymExpr.mul (SymExpr.mul (SymExpr.mul model.dm model.irho)
          (SymExpr.dt2 ue)) model.m)
        (du_aux model ue sdims)))
  | PVal.tup _ => Except.error "AttributeError: tuple has no dt2"

/-- The imaging-condition formula type: `(u, v, model, **kwargs)`. -/
def ICFunc := PVal → PVal → Model → Kwargs → Except String SymExpr

/-- Registry `ic_dict`, string-keyed, for the imaging conditions. -/
def ic_dict (k : String) : Option ICFunc :=
  if k = "isic_freq" then some isic_freq_g
  else if k = "corr_freq" then some corr_freq
  else if k = "isic" then some isic_g
  else if k = "corr" then some corr_fields
  else none

/-- The linearized-source formula type: `(model, u)`. -/
def LSFunc := Model → PVal → Except String SrcRes

/-- Registry `ls_dict`, string-keyed, for the linearized sources. -/
def ls_dict (k : String) : Option LSFunc :=
  if k = "isic" then some isic_s
  else if k = "corr" then some basic_src
  else none

/-- Dispatch `lin_src(model, u, isic=False)`: goes through
`ls_dict[func_name(isic=isic)]` (the `freq` argument of `func_name` keeps its
default `None`). -/
def lin_src (model : Model) (u : PVal) (isic : Bool) : Except String SrcRes :=
  match ls_dict (func_name none isic) with
  | some lsf => lsf model u
  | none => Except.error "KeyError"

/-- Devito `as_tuple`: a tuple is returned as is, anything else is
wrapped into a one-element tuple. -/
def as_tuple (u : PVal) : List PVal :=
  match u with
  | PVal.tup l => l
  | x => [x]

/-- Python indexing `l[i]`, raising `IndexError` when out of range. -/
def pyIndex (l : List PVal) (i : Nat) : Except String PVal :=
  match l.get? i with
  | some x => Except.ok x
  | none => Except.error "IndexError: tuple index out of range"

/-- The dispatch-and-call step of `grad_expr`:
`ic_dict[func_name(freq=freq, isic=isic)](as_tuple(u)[0], as_tuple(v)[0],
model, freq=freq, factor=dft_sub)`.  Note the keyword `factor=dft_sub` lands
in the `factor` slot of the kwargs bag while the `dft_sub` slot stays empty. -/
def icApply (u v : PVal) (model : Model) (freq : Option (List ℚ))
    (dft_sub : Option Nat) (isic : Bool) : Except String SymExpr :=
  match ic_dict (func_name freq isic) with
  | none => Except.error "KeyError"
  | some icf =>
    match pyIndex (as_tuple u) 0 with
    | Except.error s => Except.error s
    | Except.ok u0 =>
      match pyIndex (as_tuple v) 0 with
      | Except.error s => Except.error s
      | Except.ok v0 => icf u0 v0 model (Kwargs.mk freq none dft_sub none)

/-- Gradient update stencil
`grad_expr(gradm, u, v, model, w=1, freq=None, dft_sub=None, isic=False)`:
selects the imaging-condition formula, evaluates it on the primary sub-fields,
and returns the single update equation `[Eq(gradm, expr + gradm)]`.  The
weight parameter `w` is accepted but never used by the body. -/
def grad_expr (gradm : SymExpr) (u v : PVal) (model : Model) (w : SymExpr)
    (freq : Option (List ℚ)) (dft_sub : Option Nat) (isic : Bool) :
    Except String (List (SymExpr × SymExpr)) :=
  match icApply u v model freq dft_sub isic with
  | Except.error s => Except.error s
  | Except.ok e => Except.ok [(gradm, SymExpr.add e gradm)]

/-- A valuation environment for symbolic expressions: values for scalar
symbols and grid fields (at some fixed grid point and time), a value for the
constant `pi`, the frequency index `idx` at which the coefficient field is
read, and oracles for the externally-defined operators: `cos`, `sin` (as
functions of the value of their argument) and the uninterpreted derivative
operators `dt2` and `dsp` (as functions of the differentiated expression). -/
structure Env where
  symVal : String → ℚ
  fldVal : String → ℚ
  piVal : ℚ
  idx : Nat
  cosVal : ℚ → ℚ
  sinVal : ℚ → ℚ
  dt2Val : SymExpr → ℚ
  dspVal : String → Option Nat → SymExpr → ℚ

/-- Evaluation of a symbolic expression in an environment. -/
def evalSym (env : Env) : SymExpr → ℚ
  | SymExpr.num q => q
  | SymExpr.pi => env.piVal
  | SymExpr.sym s => env.symVal s
  | SymExpr.fld s => env.fldVal s
  | SymExpr.coeff _ data => data.getD env.idx 0
  | SymExpr.add a b => evalSym env a + evalSym env b
  | SymExpr.sub a b => evalSym env a - evalSym env b
  | SymExpr.mul a b => evalSym env a * evalSym env b
  | SymExpr.div a b => evalSym env a / evalSym env b
  | SymExpr.neg a => - evalSym env a
  | SymExpr.pow a n => evalSym env a ^ n
  | SymExpr.cos a => env.cosVal (evalSym env a)
  | SymExpr.sin a => env.sinVal (evalSym env a)
  | SymExpr.dt2 a => env.dt2Val a
  | SymExpr.dsp d o a => env.dspVal d o a

/-- Updating the value of one grid field in an environment. -/
def setFld (env : Env) (n : String) (x : ℚ) : Env :=
  { env with fldVal := fun s => if s = n then x else env.fldVal s }

/-- Whether the evaluation of an expression can read the value of the grid
field `n` (the derivative operators are evaluated through the expression
oracles of the environment, not through the field values). -/
def usesFld (n : String) : SymExpr → Bool
  | SymExpr.fld s => s == n
  | SymExpr.add a b => usesFld n a || usesFld n b
  | SymExpr.sub a b => usesFld n a || usesFld n b
  | SymExpr.mul a b => usesFld n a || usesFld n b
  | SymExpr.div a b => usesFld n a || usesFld n b
  | SymExpr.neg a => usesFld n a
  | SymExpr.pow a _ => usesFld n a
  | SymExpr.cos a => usesFld n a
  | SymExpr.sin a => usesFld n a
  | _ => false

/-- Applying one returned update equation to the current gradient value `g`:
the right-hand side is evaluated in an environment where the gradient field
`gname` holds `g` (the in-place read-modify-write semantics of the solver). -/
def applyGradEqs (gname : String) (eqs : List (SymExpr × SymExpr)) (env : Env)
    (g : ℚ) : ℚ :=
  match eqs with
  | [] => g
  | (_, rhs) :: _ => evalSym (setFld env gname g) rhs

/-- Spec §4.4 step 3: the phase `ω·t = 2π·f·t_s·factor·dt`
(left-associated products, as the code writes it). -/
def specPhase (f tsave : SymExpr) (factor : Nat) (dt : SymExpr) : SymExpr :=
  SymExpr.mul (SymExpr.mul (SymExpr.mul (SymExpr.mul
    (SymExpr.mul (SymExpr.num 2) SymExpr.pi) f) tsave)
    (SymExpr.num (factor : ℚ))) dt

/-- Spec §4.4 step 4: the weight `w = (2π·f)² / total_time_steps`. -/
def specWeight (f nt : SymExpr) : SymExpr :=
  SymExpr.div (SymExpr.pow (SymExpr.mul (SymExpr.mul (SymExpr.num 2)
    SymExpr.pi) f) 2) nt

/-- Spec §4.4/§4.5: the DFT reconstruction
`recon = u_real·cos(ω·t) − u_imag·sin(ω·t)`. -/
def specRecon (ufr ufi ph : SymExpr) : SymExpr :=
  SymExpr.sub (SymExpr.mul ufr (SymExpr.cos ph)) (SymExpr.mul ufi (SymExpr.sin ph))

/-- Spec §4.4 step 5, written from the words of the spec: the output
`w · (u_real·cos(ω·t) − u_imag·sin(ω·t)) · v`. -/
def specCorrFreq (ufr ufi ve f tsave : SymExpr) (factor : Nat)
    (dt nt : SymExpr) : SymExpr :=
  SymExpr.mul (SymExpr.mul (specWeight f nt)
    (specRecon ufr ufi (specPhase f tsave factor dt))) ve

/-- Spec §4.5, written from the words of the spec: the output
`w·(recon)·v·m − (factor/total_time_steps)·grad(recon)·grad(v)` with the same
reconstruction `recon` as §4.4. -/
def specIsicFreq (ufr ufi ve mm : SymExpr) (sdims : List String)
    (f tsave : SymExpr) (factor : Nat) (dt nt : SymExpr) : SymExpr :=
  SymExpr.sub
    (SymExpr.mul (SymExpr.mul (SymExpr.mul (specWeight f nt)
      (specRecon ufr ufi (specPhase f tsave factor dt))) ve) mm)
    (SymExpr.mul (SymExpr.div (SymExpr.num (factor : ℚ)) nt)
      (gradDot sdims (specRecon ufr ufi (specPhase f tsave factor dt)) ve))

/-- Does a built expression contain a coefficient field with zero-length
data? -/
def hasEmptyCoeff : SymExpr → Bool
  | SymExpr.coeff _ data => data.isEmpty
  | SymExpr.add a b => hasEmptyCoeff a || hasEmptyCoeff b
  | SymExpr.sub a b => hasEmptyCoeff a || hasEmptyCoeff b
  | SymExpr.mul a b => hasEmptyCoeff a || hasEmptyCoeff b
  | SymExpr.div a b => hasEmptyCoeff a || hasEmptyCoeff b
  | SymExpr.neg a => hasEmptyCoeff a
  | SymExpr.pow a _ => hasEmptyCoeff a
  | SymExpr.cos a => hasEmptyCoeff a
  | SymExpr.sin a => hasEmptyCoeff a
  | SymExpr.dt2 a => hasEmptyCoeff a
  | SymExpr.dsp _ _ a => hasEmptyCoeff a
  | _ => false

/-- Is the call an error? -/
def isErr (r : Except String SymExpr) : Bool :=
  match r with
  | Except.error _ => true
  | Except.ok _ => false

/-- Did the call succeed with an expression containing a zero-length
coefficient field? -/
def okHasEmptyCoeff (r : Except String SymExpr) : Bool :=
  match r with
  | Except.ok e => hasEmptyCoeff e
  | Except.error _ => false

/-- First component of a pair result, when there is one. -/
def resFst (r : Except String SrcRes) : Option SymExpr :=
  match r with
  | Except.ok (SrcRes.two x _) => some x
  | _ => none

/-- Second component of a pair result, when there is one. -/
def resSnd (r : Except String SrcRes) : Option SymExpr :=
  match r with
  | Except.ok (SrcRes.two _ y) => some y
  | _ => none

/-- Evaluation of a left `add`-fold: the value of the accumulator plus the sum
of the values of the list elements. -/
theorem evalSym_foldl_add (env : Env) (l : List SymExpr) (acc : SymExpr) :
    evalSym env (l.foldl SymExpr.add acc)
      = evalSym env acc + (l.map (evalSym env)).sum := by
  induction l generalizing acc with
  | nil => simp
  | cons h t ih =>
    simp only [List.foldl_cons, List.map_cons, List.sum_cons, ih, evalSym]
    ring

/-- Evaluation of a Python `sum`: the sum of the values of the list
elements. -/
theorem evalSym_pysum (env : Env) (l : List SymExpr) :
    evalSym env (pysum l) = (l.map (evalSym env)).sum := by
  simp [pysum, evalSym_foldl_add, evalSym]

/-- The single-element coefficient list `[0]` reads as `0` at any index. -/
theorem getD_single_zero (n : Nat) : ([(0 : ℚ)].getD n 0) = 0 := by
  cases n <;> rfl

/-- Reading back the field just set. -/
theorem setFld_get_self (env : Env) (n : String) (x : ℚ) :
    (setFld env n x).fldVal n = x := by
  simp [setFld]

/-- An expression that does not read a grid field evaluates identically under
any two values of that field. -/
theorem evalSym_setFld_congr (n : String) (e : SymExpr) (env : Env) (a b : ℚ)
    (h : usesFld n e = false) :
    evalSym (setFld env n a) e = evalSym (setFld env n b) e := by
  induction e with
  | num q => rfl
  | pi => rfl
  | sym s => rfl
  | fld s =>
    simp only [usesFld, beq_eq_false_iff_ne, ne_eq] at h
    simp [evalSym, setFld, h]
  | coeff d data => rfl
  | add x y ihx ihy =>
    simp only [usesFld, Bool.or_eq_false_iff] at h
    simp only [evalSym, ihx h.1, ihy h.2]
  | sub x y ihx ihy =>
    simp only [usesFld, Bool.or_eq_false_iff] at h
    simp only [evalSym, ihx h.1, ihy h.2]
  | mul x y ihx ihy =>
    simp only [usesFld, Bool.or_eq_false_iff] at h
    simp only [evalSym, ihx h.1, ihy h.2]
  | div x y ihx ihy =>
    simp only [usesFld, Bool.or_eq_false_iff] at h
    simp only [evalSym, ihx h.1, ihy h.2]
  | neg x ihx =>
    simp only [usesFld] at h
    simp only [evalSym, ihx h]
  | pow x k ihx =>
    simp only [usesFld] at h
    simp only [evalSym, ihx h]
  | cos x ihx =>
    simp only [usesFld] at h
    simp only [evalSym, ihx h]
    rfl
  | sin x ihx =>
    simp only [usesFld] at h
    simp only [evalSym, ihx h]
    rfl
  | dt2 x ihx => rfl
  | dsp d o x ihx => rfl

/-- A concrete forward wavefield used by the witnesses. -/
def uW : PVal := PVal.fn (SymExpr.fld "u") ["time", "x"] ["x"]

/-- A concrete adjoint wavefield used by the witnesses. -/
def vW : PVal := PVal.fn (SymExpr.fld "v") ["time", "x"] ["x"]

/-- A concrete model used by the witnesses. -/
def modelW : Model :=
  { m := SymExpr.fld "m", dm := SymExpr.fld "dm", rho := SymExpr.fld "rho",
    irho := SymExpr.fld "irho", irhoSpaceOrder := 8,
    timeDim := { index := SymExpr.sym "time", spacing := SymExpr.sym "dt",
                 symbolicMax := SymExpr.sym "time_M" } }

/-- A concrete evaluation environment used by the witnesses. -/
def envW : Env :=
  { symVal := fun _ => 1, fldVal := fun _ => 1, piVal := 3, idx := 0,
    cosVal := fun _ => 1, sinVal := fun _ => 0, dt2Val := fun _ => 2,
    dspVal := fun _ _ _ => 1 }

/-- The imaging-condition expression produced for the witness inputs
(the time-domain cross correlation at the default weight). -/
def eW : SymExpr :=
  SymExpr.mul (SymExpr.mul (SymExpr.neg (SymExpr.div (SymExpr.sym "dt")
    (SymExpr.fld "rho"))) (SymExpr.fld "v")) (SymExpr.dt2 (SymExpr.fld "u"))

/-- Claim C1: the imaging-condition registry keyed by `func_name` realizes the
fixed `(has_freq, isic)` table — `isic_freq_g` for frequency with ISIC,
`corr_freq` for frequency without ISIC, `isic_g` for ISIC without frequency,
and `corr_fields` otherwise — and the source registry selects `isic_s` when
`isic` is true and `basic_src` otherwise, `lin_src` dispatching through it
with the frequency argument of `func_name` left at its default. -/
theorem registry_selection (freq : Option (List ℚ)) (isic : Bool)
    (model : Model) (u : PVal) :
    ic_dict (func_name freq isic)
      = some (if freq.isSome then (if isic then isic_freq_g else corr_freq)
              else (if isic then isic_g else corr_fields)) ∧
    ls_dict (func_name none isic) = some (if isic then isic_s else basic_src) ∧
    lin_src model u isic = (if isic then isic_s else basic_src) model u := by
  cases freq <;> cases isic <;> exact ⟨rfl, rfl, rfl⟩

/-- Claim C5: `corr_fields` returns `-w * v * u.dt2`, with
`w = model.time_dim.spacing / model.rho` when the caller supplies no weight,
and with the supplied weight otherwise. -/
theorem corr_fields_formula (ue ve : SymExpr) (d1 s1 d2 s2 : List String)
    (model : Model) (fr : Option (List ℚ)) (ds fa : Option Nat) (wx : SymExpr) :
    corr_fields (PVal.fn ue d1 s1) (PVal.fn ve d2 s2) model
        (Kwargs.mk fr ds fa none)
      = Except.ok (SymExpr.mul (SymExpr.mul (SymExpr.neg (SymExpr.div
          model.timeDim.spacing model.rho)) ve) (SymExpr.dt2 ue)) ∧
    corr_fields (PVal.fn ue d1 s1) (PVal.fn ve d2 s2) model
        (Kwargs.mk fr ds fa (some wx))
      = Except.ok (SymExpr.mul (SymExpr.mul (SymExpr.neg wx) ve)
          (SymExpr.dt2 ue)) :=
  ⟨rfl, rfl⟩

/-- Claim C6: `isic_g` returns `w * (u * v.dt2 * m + grad(u)·grad(v))` with
`w = dt / rho`, and its value in any environment is the weight times the sum
of the zero-lag term `u * v.dt2 * m` and the spatial-gradient dot product, the sum
over all space dimensions of the products of partial derivatives. -/
theorem isic_g_formula (ue ve : SymExpr) (d1 s1 d2 s2 : List String)
    (model : Model) (kw : Kwargs) (env : Env) :
    isic_g (PVal.fn ue d1 s1) (PVal.fn ve d2 s2) model kw
      = Except.ok (SymExpr.mul (SymExpr.div model.timeDim.spacing model.rho)
          (SymExpr.add (SymExpr.mul (SymExpr.mul ue (SymExpr.dt2 ve)) model.m)
            (gradDot s1 ue ve))) ∧
    evalSym env (SymExpr.mul (SymExpr.div model.timeDim.spacing model.rho)
        (SymExpr.add (SymExpr.mul (SymExpr.mul ue (SymExpr.dt2 ve)) model.m)
          (gradDot s1 ue ve)))
      = evalSym env model.timeDim.spacing / evalSym env model.rho
          * (evalSym env ue * env.dt2Val ve * evalSym env model.m
             + (s1.map (fun d => env.dspVal d none ue * env.dspVal d none ve)).sum) := by
  refine ⟨rfl, ?_⟩
  simp only [evalSym, gradDot, evalSym_pysum, List.map_map, Function.comp_def]

/-- Claim C8: `basic_src` uses weight `w = (-dm) * irho`; on a tuple input it
returns the pair `(w·u[0].dt2, w·u[1].dt2)` computed elementwise, on a single
field it returns `w·u.dt2`, and each component of the pair output is unchanged
when the other input component is replaced. -/
theorem basic_src_formula (model : Model) (a : SymExpr) (da sa : List String)
    (b : SymExpr) (db sb : List String) (rest : List PVal)
    (b2 : SymExpr) (db2 sb2 : List String) :
    basic_src model (PVal.tup (PVal.fn a da sa :: PVal.fn b db sb :: rest))
      = Except.ok (SrcRes.two
          (SymExpr.mul (SymExpr.mul (SymExpr.neg model.dm) model.irho)
            (SymExpr.dt2 a))
          (SymExpr.mul (SymExpr.mul (SymExpr.neg model.dm) model.irho)
            (SymExpr.dt2 b))) ∧
    basic_src model (PVal.fn a da sa)
      = Except.ok (SrcRes.one (SymExpr.mul (SymExpr.mul (SymExpr.neg model.dm)
          model.irho) (SymExpr.dt2 a))) ∧
    resFst (basic_src model (PVal.tup (PVal.fn a da sa :: PVal.fn b db sb :: rest)))
      = resFst (basic_src model (PVal.tup (PVal.fn a da sa :: PVal.fn b2 db2 sb2 :: rest))) ∧
    resSnd (basic_src model (PVal.tup (PVal.fn a da sa :: PVal.fn b db sb :: rest)))
      = resSnd (basic_src model (PVal.tup (PVal.fn b2 db2 sb2 :: PVal.fn b db sb :: rest))) :=
  ⟨rfl, rfl, rfl, rfl⟩

/-- Claim C10: the equation returned by `grad_expr` does not depend on the
weight parameter `w` — the weight is never forwarded to the selected formula —
and on the time-domain correlation path the formula default `dt/rho` is what
appears in the returned equation. -/
theorem grad_expr_weight_independent (gradm : SymExpr) (u v : PVal)
    (model : Model) (w1 w2 : SymExpr) (freq : Option (List ℚ))
    (dft_sub : Option Nat) (isic : Bool) (ue ve : SymExpr)
    (d1 s1 d2 s2 : List String) :
    grad_expr gradm u v model w1 freq dft_sub isic
      = grad_expr gradm u v model w2 freq dft_sub isic ∧
    grad_expr gradm (PVal.fn ue d1 s1) (PVal.fn ve d2 s2) model w1 none
        dft_sub false
      = Except.ok [(gradm, SymExpr.add (SymExpr.mul (SymExpr.mul (SymExpr.neg
          (SymExpr.div model.timeDim.spacing model.rho)) ve) (SymExpr.dt2 ue))
          gradm)] :=
  ⟨rfl, rfl⟩

/-- Claim C3: on a DFT-accumulator pair, a time-domain adjoint field, a
non-empty frequency array and the subsampling descriptor `(t_s, factor)`
returned by the collaborator for the requested factor, `corr_freq` returns
exactly the spec formula `w·(u_real·cos(ω·t) − u_imag·sin(ω·t))·v` with phase
`ω·t = 2π·f·t_s·factor·dt` and weight `w = (2π·f)²/total_time_steps` (the
`symbolic_max` of the time dimension); and with the single frequency `0` that
expression evaluates to exactly `0` in every environment. -/
theorem corr_freq_formula (ufr ufi ve : SymExpr) (fdim : String)
    (dr s1 d2 s2 dv sv : List String) (model : Model) (f0 : ℚ) (fs : List ℚ)
    (ds fa : Option Nat) (ww : Option SymExpr) (env : Env) :
    corr_freq (PVal.tup [PVal.fn ufr (fdim :: dr) s1, PVal.fn ufi d2 s2])
        (PVal.fn ve dv sv) model (Kwargs.mk (some (f0 :: fs)) ds fa ww)
      = Except.ok (specCorrFreq ufr ufi ve (SymExpr.coeff fdim (f0 :: fs))
          (sub_time model.timeDim.index ds).1 (sub_time model.timeDim.index ds).2
          model.timeDim.spacing model.timeDim.symbolicMax) ∧
    evalSym env (specCorrFreq ufr ufi ve (SymExpr.coeff fdim [0])
        (sub_time model.timeDim.index ds).1 (sub_time model.timeDim.index ds).2
        model.timeDim.spacing model.timeDim.symbolicMax) = 0 := by
  refine ⟨rfl, ?_⟩
  simp only [specCorrFreq, specWeight, specRecon, specPhase, evalSym,
    getD_single_zero]
  ring

/-- Claim C4: `isic_freq_g` returns exactly the spec formula
`w·recon·v·m − (factor/total_time_steps)·grad(recon)·grad(v)`, where `recon`
is the same DFT reconstruction (same phase, same weight) as the one
`corr_freq` wraps — witnessed by the second conjunct, which evaluates
`corr_freq` at the same inputs and the same subsampling descriptor and
obtains `w·recon·v` built from the identical `specRecon`/`specWeight`
sub-terms; the spatial-gradient correction term is scaled by
`factor/total_time_steps`, not by the `(2π·f)²` weight. -/
theorem isic_freq_formula (ufr ufi ve : SymExpr) (fdim : String)
    (dr s1 d2 s2 dv sv : List String) (model : Model) (f0 : ℚ) (fs : List ℚ)
    (ds fa ds2 : Option Nat) (ww ww2 : Option SymExpr) :
    isic_freq_g (PVal.tup [PVal.fn ufr (fdim :: dr) s1, PVal.fn ufi d2 s2])
        (PVal.fn ve dv sv) model (Kwargs.mk (some (f0 :: fs)) ds fa ww)
      = Except.ok (specIsicFreq ufr ufi ve model.m s1
          (SymExpr.coeff fdim (f0 :: fs))
          (sub_time model.timeDim.index fa).1 (sub_time model.timeDim.index fa).2
          model.timeDim.spacing model.timeDim.symbolicMax) ∧
    corr_freq (PVal.tup [PVal.fn ufr (fdim :: dr) s1, PVal.fn ufi d2 s2])
        (PVal.fn ve dv sv) model (Kwargs.mk (some (f0 :: fs)) fa ds2 ww2)
      = Except.ok (specCorrFreq ufr ufi ve (SymExpr.coeff fdim (f0 :: fs))
          (sub_time model.timeDim.index fa).1 (sub_time model.timeDim.index fa).2
          model.timeDim.spacing model.timeDim.symbolicMax) :=
  ⟨rfl, rfl⟩

/-- Claim C7: `isic_s` returns `dm·irho·u.dt2·m − du_aux`, where `du_aux` is
the sum over every space dimension `d` of `∂_d(∂_d(u)·dm·irho)` with both
derivatives at finite-difference order `irho.space_order // 2`; and the value
of `du_aux` is invariant under any permutation of the space dimensions. -/
theorem isic_s_formula (ue : SymExpr) (d1 s1 : List String) (model : Model)
    (s2 : List String) (hperm : List.Perm s1 s2) (env : Env) :
    isic_s model (PVal.fn ue d1 s1)
      = Except.ok (SrcRes.one (SymExpr.sub
          (SymExpr.mul (SymExpr.mul (SymExpr.mul model.dm model.irho)
            (SymExpr.dt2 ue)) model.m)
          (du_aux model ue s1))) ∧
    du_aux model ue s1 = pysum (s1.map (fun d =>
        SymExpr.dsp d (some (model.irhoSpaceOrder / 2))
          (SymExpr.mul (SymExpr.mul
            (SymExpr.dsp d (some (model.irhoSpaceOrder / 2)) ue)
            model.dm) model.irho))) ∧
    evalSym env (du_aux model ue s1) = evalSym env (du_aux model ue s2) := by
  refine ⟨rfl, rfl, ?_⟩
  simp only [du_aux, evalSym_pysum, List.map_map]
  exact List.Perm.sum_eq (hperm.map _)

/-- Claim C7 witness: the permutation invariance at the concrete model and
field, with the two space dimensions swapped. -/
theorem isic_s_formula_witness :
    evalSym envW (du_aux modelW (SymExpr.fld "u") ["x", "y"])
      = evalSym envW (du_aux modelW (SymExpr.fld "u") ["y", "x"]) :=
  (isic_s_formula (SymExpr.fld "u") ["time", "x", "y"] ["x", "y"] modelW
    ["y", "x"] (List.Perm.swap "y" "x" []) envW).2.2

/-- Claim C2: whenever the selected imaging-condition formula produces an
expression `e`, `grad_expr` returns exactly one equation, of the form
`gradm := e + gradm` — the previous gradient value appears unchanged as an
additive term — and, provided `e` does not read the gradient field itself,
applying that equation twice against an initial gradient value `g0` yields
the formula contribution added twice to `g0`: the gradient is accumulated,
never overwritten. -/
theorem grad_expr_accumulates (gname : String) (u v : PVal) (model : Model)
    (w : SymExpr) (freq : Option (List ℚ)) (dft_sub : Option Nat) (isic : Bool)
    (e : SymExpr) (h : icApply u v model freq dft_sub isic = Except.ok e)
    (hg : usesFld gname e = false) (env : Env) (g0 : ℚ) :
    grad_expr (SymExpr.fld gname) u v model w freq dft_sub isic
      = Except.ok [(SymExpr.fld gname, SymExpr.add e (SymExpr.fld gname))] ∧
    applyGradEqs gname [(SymExpr.fld gname, SymExpr.add e (SymExpr.fld gname))]
        env (applyGradEqs gname
          [(SymExpr.fld gname, SymExpr.add e (SymExpr.fld gname))] env g0)
      = evalSym (setFld env gname g0) e
          + (evalSym (setFld env gname g0) e + g0) := by
  constructor
  · simp [grad_expr, h]
  · simp only [applyGradEqs, evalSym, setFld_get_self]
    rw [evalSym_setFld_congr gname e env
      (evalSym (setFld env gname g0) e + g0) g0 hg]

/-- Claim C2 witness: the accumulation at the concrete wavefields, model,
environment and initial gradient value `5`, on the time-domain correlation
path. -/
theorem grad_expr_accumulates_witness :
    grad_expr (SymExpr.fld "gradm") uW vW modelW (SymExpr.num 1) none none false
      = Except.ok [(SymExpr.fld "gradm", SymExpr.add eW (SymExpr.fld "gradm"))] ∧
    applyGradEqs "gradm" [(SymExpr.fld "gradm", SymExpr.add eW (SymExpr.fld "gradm"))]
        envW (applyGradEqs "gradm"
          [(SymExpr.fld "gradm", SymExpr.add eW (SymExpr.fld "gradm"))] envW 5)
      = evalSym (setFld envW "gradm" 5) eW
          + (evalSym (setFld envW "gradm" 5) eW + 5) :=
  grad_expr_accumulates "gradm" uW vW modelW (SymExpr.num 1) none none false
    eW rfl rfl envW 5

/-- Claim C9 (amended): when a frequency-domain formula is invoked with a
missing frequency array (`freq=None`), both `corr_freq` and `isic_freq_g`
fail immediately — the error is raised at the `freq.shape` access, before the
coefficient field is constructed, whatever the wavefield arguments are.  A
frequency array of length 0, however, does NOT fail: both formulas return an
expression that contains a zero-length coefficient field. -/
theorem freq_config_errors (u v : PVal) (model : Model) (kw : Kwargs)
    (hf : kw.freq = none) (ufr ufi ve : SymExpr) (fdim : String)
    (dr s1 d2 s2 dv sv : List String) (ds fa : Option Nat)
    (ww : Option SymExpr) :
    isErr (corr_freq u v model kw) = true ∧
    isErr (isic_freq_g u v model kw) = true ∧
    okHasEmptyCoeff (corr_freq
        (PVal.tup [PVal.fn ufr (fdim :: dr) s1, PVal.fn ufi d2 s2])
        (PVal.fn ve dv sv) model (Kwargs.mk (some []) ds fa ww)) = true ∧
    okHasEmptyCoeff (isic_freq_g
        (PVal.tup [PVal.fn ufr (fdim :: dr) s1, PVal.fn ufi d2 s2])
        (PVal.fn ve dv sv) model (Kwargs.mk (some []) ds fa ww)) = true := by
  obtain ⟨fr, ds0, fa0, ww0⟩ := kw
  have hfr : fr = none := hf
  subst hfr
  refine ⟨?_, ?_, rfl, rfl⟩ <;>
  · cases u with
    | fn e d s => rfl
    | tup l =>
      cases l with
      | nil => rfl
      | cons a t =>
        cases t with
        | nil => rfl
        | cons b t2 =>
          cases t2 with
          | nil => rfl
          | cons c t3 => rfl

/-- Claim C9 witness: the amended behaviour at concrete inputs — missing
frequency array fails for both formulas; the empty frequency array succeeds
for both and the result carries a zero-length coefficient field. -/
theorem freq_config_errors_witness :
    isErr (corr_freq uW vW modelW (Kwargs.mk none none none none)) = true ∧
    isErr (isic_freq_g uW vW modelW (Kwargs.mk none none none none)) = true ∧
    okHasEmptyCoeff (corr_freq
        (PVal.tup [PVal.fn (SymExpr.fld "ufr") ["p_freq", "x"] ["x"],
          PVal.fn (SymExpr.fld "ufi") ["p_freq", "x"] ["x"]])
        (PVal.fn (SymExpr.fld "v") ["time", "x"] ["x"]) modelW
        (Kwargs.mk (some []) none (some 4) none)) = true ∧
    okHasEmptyCoeff (isic_freq_g
        (PVal.tup [PVal.fn (SymExpr.fld "ufr") ["p_freq", "x"] ["x"],
          PVal.fn (SymExpr.fld "ufi") ["p_freq", "x"] ["x"]])
        (PVal.fn (SymExpr.fld "v") ["time", "x"] ["x"]) modelW
        (Kwargs.mk (some []) none (some 4) none)) = true :=
  freq_config_errors uW vW modelW (Kwargs.mk none none none none) rfl
    (SymExpr.fld "ufr") (SymExpr.fld "ufi") (SymExpr.fld "v") "p_freq"
    ["x"] ["x"] ["p_freq", "x"] ["x"] ["time", "x"] ["x"] none (some 4) none

/-- Claim C9 counterexample: a frequency array of length 0 does not cause a
failure — `corr_freq` succeeds on it and silently returns an expression
containing the zero-length coefficient field, contradicting the claim that
such a configuration fails before any coefficient field is constructed. -/
theorem corr_freq_empty_freq_no_failure :
    isErr (corr_freq
        (PVal.tup [PVal.fn (SymExpr.fld "ufr") ["p_freq", "x"] ["x"],
          PVal.fn (SymExpr.fld "ufi") ["p_freq", "x"] ["x"]])
        (PVal.fn (SymExpr.fld "v") ["time", "x"] ["x"]) modelW
        (Kwargs.mk (some []) none (some 4) none)) = false ∧
    okHasEmptyCoeff (corr_freq
        (PVal.tup [PVal.fn (SymExpr.fld "ufr") ["p_freq", "x"] ["x"],
          PVal.fn (SymExpr.fld "ufi") ["p_freq", "x"] ["x"]])
        (PVal.fn (SymExpr.fld "v") ["time", "x"] ["x"]) modelW
        (Kwargs.mk (some []) none (some 4) none)) = true :=
  ⟨rfl, rfl⟩

end JUDISensitivity
